import Mathlib

/-!
Shallow embedding of the QGChat server core (src/server/src/server.js and
src/server/src/db.js): the rule-based dialog engine (matchRuleIntent, parseKV),
the conversation state store (setConversationState), and the processing-job
orchestrator (progress ledger, conversation-to-job registry, getProgress).

JavaScript values appearing in conversation metadata are modelled by the
inductive type JsVal; JS objects are modelled as association lists with
unique keys (JS object keys are unique), property assignment as replace-or-append,
and spread merge as a left fold of assignments.

Machine-level caveats of the embedding, each noted at its definition:
Unicode case mapping is restricted to ASCII (all case-insensitive literals in
the source are ASCII), and the Number() conversion is modelled on its
decimal-integer fragment (the only fragment the program ever feeds it).
-/

namespace QGChat

/-- A JavaScript runtime value, as far as the conversation metadata and the
dialog engine need: null, boolean, number (NaN separated), string, object. -/
inductive JsVal where
  | null : JsVal
  | bool : Bool → JsVal
  | num : Int → JsVal
  | nan : JsVal
  | str : String → JsVal
  | obj : List (String × JsVal) → JsVal
  deriving Repr

/-- Decidable equality for JsVal (hand rolled because of the nested list). -/
def JsVal.beq : JsVal → JsVal → Bool
  | .null, .null => true
  | .bool a, .bool b => a == b
  | .num a, .num b => a == b
  | .nan, .nan => true
  | .str a, .str b => a == b
  | .obj a, .obj b => beqFields a b
  | _, _ => false
where beqFields : List (String × JsVal) → List (String × JsVal) → Bool
  | [], [] => true
  | (k1, v1) :: r1, (k2, v2) :: r2 => k1 == k2 && JsVal.beq v1 v2 && beqFields r1 r2
  | _, _ => false

instance : BEq JsVal := ⟨JsVal.beq⟩

theorem JsVal.beq_refl : (v : JsVal) → JsVal.beq v v = true
  | .null => rfl
  | .bool b => by simp [JsVal.beq]
  | .num n => by simp [JsVal.beq]
  | .nan => rfl
  | .str s => by simp [JsVal.beq]
  | .obj fields => by
      simp only [JsVal.beq]
      exact beqFields_refl fields
where beqFields_refl : (l : List (String × JsVal)) → JsVal.beq.beqFields l l = true
  | [] => rfl
  | (k, v) :: rest => by
      simp only [JsVal.beq.beqFields, Bool.and_eq_true, beq_self_eq_true, true_and]
      exact ⟨JsVal.beq_refl v, beqFields_refl rest⟩

theorem JsVal.eq_of_beq : {a b : JsVal} → JsVal.beq a b = true → a = b
  | .null, .null, _ => rfl
  | .bool a, .bool b, h => by simp [JsVal.beq] at h; simp [h]
  | .num a, .num b, h => by simp [JsVal.beq] at h; simp [h]
  | .nan, .nan, _ => rfl
  | .str a, .str b, h => by simp [JsVal.beq] at h; simp [h]
  | .obj a, .obj b, h => by
      simp only [JsVal.beq] at h
      exact congrArg JsVal.obj (eqFields h)
  | .null, .bool _, h => by simp [JsVal.beq] at h
  | .null, .num _, h => by simp [JsVal.beq] at h
  | .null, .nan, h => by simp [JsVal.beq] at h
  | .null, .str _, h => by simp [JsVal.beq] at h
  | .null, .obj _, h => by simp [JsVal.beq] at h
  | .bool _, .null, h => by simp [JsVal.beq] at h
  | .bool _, .num _, h => by simp [JsVal.beq] at h
  | .bool _, .nan, h => by simp [JsVal.beq] at h
  | .bool _, .str _, h => by simp [JsVal.beq] at h
  | .bool _, .obj _, h => by simp [JsVal.beq] at h
  | .num _, .null, h => by simp [JsVal.beq] at h
  | .num _, .bool _, h => by simp [JsVal.beq] at h
  | .num _, .nan, h => by simp [JsVal.beq] at h
  | .num _, .str _, h => by simp [JsVal.beq] at h
  | .num _, .obj _, h => by simp [JsVal.beq] at h
  | .nan, .null, h => by simp [JsVal.beq] at h
  | .nan, .bool _, h => by simp [JsVal.beq] at h
  | .nan, .num _, h => by simp [JsVal.beq] at h
  | .nan, .str _, h => by simp [JsVal.beq] at h
  | .nan, .obj _, h => by simp [JsVal.beq] at h
  | .str _, .null, h => by simp [JsVal.beq] at h
  | .str _, .bool _, h => by simp [JsVal.beq] at h
  | .str _, .num _, h => by simp [JsVal.beq] at h
  | .str _, .nan, h => by simp [JsVal.beq] at h
  | .str _, .obj _, h => by simp [JsVal.beq] at h
  | .obj _, .null, h => by simp [JsVal.beq] at h
  | .obj _, .bool _, h => by simp [JsVal.beq] at h
  | .obj _, .num _, h => by simp [JsVal.beq] at h
  | .obj _, .nan, h => by simp [JsVal.beq] at h
  | .obj _, .str _, h => by simp [JsVal.beq] at h
where eqFields : {l1 l2 : List (String × JsVal)} → JsVal.beq.beqFields l1 l2 = true → l1 = l2
  | [], [], _ => rfl
  | (k1, v1) :: r1, (k2, v2) :: r2, h => by
      simp only [JsVal.beq.beqFields, Bool.and_eq_true, beq_iff_eq] at h
      obtain ⟨⟨hk, hv⟩, hr⟩ := h
      rw [hk, JsVal.eq_of_beq hv, eqFields hr]
  | [], (_, _) :: _, h => by simp [JsVal.beq.beqFields] at h
  | (_, _) :: _, [], h => by simp [JsVal.beq.beqFields] at h

instance : DecidableEq JsVal := fun a b =>
  if h : JsVal.beq a b = true then
    isTrue (JsVal.eq_of_beq h)
  else
    isFalse (fun he => h (he ▸ JsVal.beq_refl a))

/-- First-occurrence association lookup, the JS object property read. -/
def objLookup {α : Type} : List (String × α) → String → Option α
  | [], _ => none
  | (k, v) :: rest, key => if k = key then some v else objLookup rest key

/-- JS object property assignment on an association list: replace the first
occurrence of the key in place, or append the key when absent (JS object keys
are unique, so replace-first equals replace-all on well-formed objects). -/
def objSet {α : Type} : List (String × α) → String → α → List (String × α)
  | [], k, v => [(k, v)]
  | (k1, v1) :: rest, k, v =>
      if k1 = k then (k, v) :: rest else (k1, v1) :: objSet rest k v

/-- JS object spread merge: the second list of fields is assigned onto the
first, one property at a time, left to right. -/
def jsSpread (base patch : List (String × JsVal)) : List (String × JsVal) :=
  patch.foldl (fun acc kv => objSet acc kv.1 kv.2) base

/-- JS truthiness of a value: null, false, 0, NaN and the empty string are
falsy, everything else (objects included, even empty ones) is truthy. -/
def jsTruthy : JsVal → Bool
  | .null => false
  | .bool b => b
  | .num n => n != 0
  | .nan => false
  | .str s => s != ""
  | .obj _ => true

/-- Truthiness of an optional value; a missing value (undefined) is falsy. -/
def jsTruthyO : Option JsVal → Bool
  | none => false
  | some v => jsTruthy v

/-- JS logical-or defaulting: a value or, when the value is absent or falsy,
the given default (the pattern x or-or default in the source). -/
def jsOr (o : Option JsVal) (d : JsVal) : JsVal :=
  match o with
  | some v => if jsTruthy v then v else d
  | none => d

/-- JS nullish coalescing: keep the value unless it is absent (undefined) or
null (the ?? operator in the source). -/
def jsCoalesce (o : Option JsVal) (d : JsVal) : JsVal :=
  match o with
  | some .null => d
  | some v => v
  | none => d

/-- JS property access on an arbitrary value: object fields are looked up,
any non-object yields undefined. (Property access on null or undefined throws
in JS; every access site in the source is guarded by an or-default, so the
thrown case is unreachable and not modelled.) -/
def jsProp : JsVal → String → Option JsVal
  | .obj fields, key => objLookup fields key
  | _, _ => none

/-! String machinery: JS whitespace, trim, ASCII lowering, splitting, and the
handful of regular expressions of server.js rendered as decidable matchers. -/

/-- JS whitespace (the regex class backslash-s and the characters removed by
String.prototype.trim): ASCII whitespace, NBSP, the Unicode space separators,
the line separators and the BOM. -/
def isJsWs (c : Char) : Bool :=
  let n := c.toNat
  n = 9 || n = 10 || n = 11 || n = 12 || n = 13 || n = 32 ||
  n = 0xa0 || n = 0x1680 || (0x2000 ≤ n && n ≤ 0x200a) ||
  n = 0x2028 || n = 0x2029 || n = 0x202f || n = 0x205f || n = 0x3000 || n = 0xfeff

/-- JS String.prototype.trim on a character list. -/
def jsTrimList (l : List Char) : List Char :=
  ((l.dropWhile isJsWs).reverse.dropWhile isJsWs).reverse

/-- JS String.prototype.trim. -/
def jsTrim (s : String) : String := ⟨jsTrimList s.data⟩

/-- ASCII lowering of one character; the case-insensitive literals of
server.js are all ASCII, so the ASCII fragment of the Unicode simple case
mapping used by JS regex /i matching and toLowerCase suffices here. -/
def lowerChar (c : Char) : Char := c.toLower

/-- ASCII lowering of a string (JS toLowerCase, ASCII fragment). -/
def lowerStr (s : String) : String := ⟨s.data.map lowerChar⟩

/-- Case-insensitive whole-string equality with an (already lowered) ASCII
literal, as performed by an anchored /i regex such as caret-back-dollar. -/
def eqCI (l : List Char) (lit : String) : Bool :=
  l.map lowerChar == lit.data

/-- Splitting a character list at every character satisfying p, keeping empty
segments, exactly like JS String.prototype.split on a one-character class.
The source splits on the class [,whitespace]+ (a run); splitting per character
instead produces extra empty segments between adjacent separators, and the
source filters all empty segments out right after, so the two agree. -/
def splitBy (p : Char → Bool) : List Char → List (List Char)
  | [] => [[]]
  | c :: cs =>
      let r := splitBy p cs
      if p c then [] :: r
      else
        match r with
        | t :: ts => (c :: t) :: ts
        | [] => [[c]]

/-- Separator class of parseKV: comma or JS whitespace. -/
def isSepChar (c : Char) : Bool := c == ',' || isJsWs c

/-- Matches a literal (case-insensitively, ASCII) at the head of the input and
returns the remainder. -/
def dropLitCI : List Char → List Char → Option (List Char)
  | [], t => some t
  | _ :: _, [] => none
  | a :: as, c :: cs => if lowerChar c = lowerChar a then dropLitCI as cs else none

/-- Strips the prefix matched by the regex caret-set-ws*-colon-ws* (the
replace call at the top of parseKV); when the prefix does not match, the input
is returned unchanged. -/
def stripSetPrefix (t : List Char) : List Char :=
  match dropLitCI "set".data t with
  | some r =>
      match r.dropWhile isJsWs with
      | ':' :: r2 => r2.dropWhile isJsWs
      | _ => t
  | none => t

/-- parseKV from server.js: strip the set-colon prefix, split into pairs on
commas and whitespace, split each pair on the equals sign (JS split, every
occurrence), keep the first two segments as key and value, skip a pair whose
key or value segment is empty, lower-case the key, assign into the output
object (later pairs overwrite earlier ones). -/
def parseKV (command : String) : List (String × String) :=
  let m := stripSetPrefix command.data
  let kvs := ((splitBy isSepChar m).map jsTrimList).filter (fun s => s != [])
  kvs.foldl
    (fun out kv =>
      let segs := (splitBy (fun c => c == '=') kv).map jsTrimList
      match segs with
      | k :: v :: _ =>
          if k ≠ [] ∧ v ≠ [] then objSet out (lowerStr ⟨k⟩) ⟨v⟩ else out
      | _ => out)
    []

/-! Decidable renderings of the dialog-engine regexes. -/

/-- JS word character (regex class backslash-w): ASCII letters, digits and
underscore. -/
def isWordChar (c : Char) : Bool :=
  (('a' ≤ c && c ≤ 'z') || ('A' ≤ c && c ≤ 'Z') || c.isDigit || c = '_')

/-- Word boundary after a word character: end of input or a non-word
character next. -/
def boundaryAfter : List Char → Bool
  | [] => true
  | c :: _ => !isWordChar c

/-- The dash alternatives of the character class in the 1-1 and 1-2 intent
regexes: hyphen-minus, U+2010, U+2013, U+2014. -/
def isIntentDash (c : Char) : Bool :=
  let n := c.toNat
  n = 0x2d || n = 0x2010 || n = 0x2013 || n = 0x2014

/-- Anchored match of the regex caret-1-dash?-d2-wordboundary, the first
alternative of the 1-1 and 1-2 intent regexes. -/
def startsDigitPair (d2 : Char) : List Char → Bool
  | '1' :: c :: rest =>
      if c == d2 then boundaryAfter rest
      else if isIntentDash c then
        match rest with
        | c2 :: rest2 => c2 == d2 && boundaryAfter rest2
        | [] => false
      else false
  | _ => false

/-- A character matched by the regex dot without the dotall flag: anything but
a line terminator. -/
def isRegexDot (c : Char) : Bool :=
  let n := c.toNat
  !(n = 10 || n = 13 || n = 0x2028 || n = 0x2029)

/-- Maximal runs of dot-matchable characters: a dot-star gap never crosses a
line terminator, so an unanchored alternative built from literals and
dot-stars matches the input exactly when it matches inside one such run. -/
def dotRuns (l : List Char) : List (List Char) := splitBy (fun c => !isRegexDot c) l

/-- Searches a literal anywhere in the input and returns the remainder after
its first occurrence. -/
def searchLit (lit : List Char) : List Char → Option (List Char)
  | [] => if lit.isEmpty then some [] else none
  | c :: cs =>
      if lit.isPrefixOf (c :: cs) then some ((c :: cs).drop lit.length)
      else searchLit lit cs

/-- The literal occurs somewhere in one dot-run of the input. -/
def runContains (l : List Char) (lit : String) : Bool :=
  (dotRuns l).any (fun r => (searchLit lit.data r).isSome)

/-- Two literals in order with dot-star gaps, inside one dot-run. -/
def runSeq2 (l : List Char) (a b : String) : Bool :=
  (dotRuns l).any (fun r =>
    match searchLit a.data r with
    | some r1 => (searchLit b.data r1).isSome
    | none => false)

/-- Three literals in order with dot-star gaps, the last one an alternation
drawn from a list of literals, inside one dot-run. -/
def runSeq3 (l : List Char) (a b : String) (cs : List String) : Bool :=
  (dotRuns l).any (fun r =>
    match searchLit a.data r with
    | some r1 =>
        match searchLit b.data r1 with
        | some r2 => cs.any (fun c => (searchLit c.data r2).isSome)
        | none => false
    | none => false)

/-- The 1-1 intent regex of matchRuleIntent: anchored 1-1 with word boundary,
or the two unanchored existing-document phrases. -/
def is11Test (t : List Char) : Bool :=
  startsDigitPair '1' t || runSeq3 t "既存" "資料" ["問題", "作成"] ||
    runSeq2 t "既存資料" "作成"

/-- The 1-2 intent regex of matchRuleIntent: anchored 1-2 with word boundary,
or the two unanchored upload phrases. -/
def is12Test (t : List Char) : Bool :=
  startsDigitPair '2' t || runSeq3 t "新規" "資料" ["アップロード", "問題", "作成"] ||
    runSeq2 t "アップロード" "問題"

/-- The help regex: contains one of the help phrases anywhere
(case-insensitive for the ASCII literal). -/
def helpTest (t : List Char) : Bool :=
  runContains t "ヘルプ" || runContains t "使い方" || runContains (t.map lowerChar) "help"

/-- The back regex: the whole input is the back word (case-insensitive). -/
def backTest (t : List Char) : Bool := eqCI t "back" || t == "戻る".data

/-- The home regex: the whole input is home or the menu word. -/
def homeTest (t : List Char) : Bool := eqCI t "home" || t == "メニュー".data

/-- The run regex: the whole input is run or the Japanese run word. -/
def runTest (t : List Char) : Bool := eqCI t "run" || t == "実行".data

/-- Expects at least one JS whitespace character, then skips the whole run. -/
def ws1 : List Char → Option (List Char)
  | c :: cs => if isJsWs c then some (cs.dropWhile isJsWs) else none
  | [] => none

/-- Expects a colon. -/
def expectColon : List Char → Option (List Char)
  | ':' :: cs => some cs
  | _ => none

/-- Expects at least one ASCII digit and captures the maximal digit run. -/
def captureDigits (t : List Char) : Option (List Char) :=
  let ds := t.takeWhile Char.isDigit
  if ds.isEmpty then none else some ds

/-- The select-doc regex: anchored select, whitespace, doc, optional
whitespace, colon, optional whitespace, captured digits. -/
def selectDocExec (t : List Char) : Option (List Char) :=
  (dropLitCI "select".data t).bind fun r1 =>
  (ws1 r1).bind fun r2 =>
  (dropLitCI "doc".data r2).bind fun r3 =>
  (expectColon (r3.dropWhile isJsWs)).bind fun r4 =>
  captureDigits (r4.dropWhile isJsWs)

/-- The uploaded regex: anchored uploaded, optional whitespace, colon,
optional whitespace, captured digits. -/
def uploadedExec (t : List Char) : Option (List Char) :=
  (dropLitCI "uploaded".data t).bind fun r1 =>
  (expectColon (r1.dropWhile isJsWs)).bind fun r2 =>
  captureDigits (r2.dropWhile isJsWs)

/-- The set-colon prefix test guarding the parseKV call. -/
def setColonTest (t : List Char) : Bool :=
  ((dropLitCI "set".data t).bind fun r => expectColon (r.dropWhile isJsWs)).isSome

/-! Number conversion and template interpolation. -/

/-- Decimal value of a digit run. -/
def digitsToNat (ds : List Char) : Nat :=
  ds.foldl (fun a c => a * 10 + (c.toNat - 48)) 0

/-- JS Number() on a string, restricted to the decimal-integer fragment: the
trimmed empty string is 0, an optional sign followed by digits is that
integer, anything else is NaN. (Full JS Number also accepts fractional,
exponential, hex and Infinity forms; the program only ever feeds this
conversion integer literals from its own digit-capturing regexes or the
set-command values, so the integer fragment is the exercised one.) -/
def jsStringToNumber (s : String) : JsVal :=
  match jsTrimList s.data with
  | [] => .num 0
  | l =>
      let signed : Int × List Char :=
        match l with
        | '+' :: r => (1, r)
        | '-' :: r => (-1, r)
        | r => (1, r)
      if signed.2 ≠ [] ∧ signed.2.all Char.isDigit then
        .num (signed.1 * digitsToNat signed.2)
      else .nan

/-- JS Number() on a value. -/
def jsToNumber : JsVal → JsVal
  | .num n => .num n
  | .nan => .nan
  | .str s => jsStringToNumber s
  | .null => .num 0
  | .bool b => .num (if b then 1 else 0)
  | .obj _ => .nan

/-- Rendering of a value inside a JS template literal. -/
def jsShowVal : JsVal → String
  | .num n => toString n
  | .nan => "NaN"
  | .str s => s
  | .null => "null"
  | .bool b => if b then "true" else "false"
  | .obj _ => "[object Object]"

/-- Rendering of a possibly-undefined value inside a JS template literal. -/
def jsShowO : Option JsVal → String
  | none => "undefined"
  | some v => jsShowVal v

/-! The dialog engine matchRuleIntent of server.js. The engine reads the
clock (new Date toISOString) when stamping lastRunAt; the clock is passed
explicitly as the extra argument now, making the clock dependence visible. -/

/-- Result object of a matched dialog rule: reply, newState, metaPatch
(rules without a metaPatch field are modelled with an empty patch). -/
structure RuleHit where
  reply : String
  newState : String
  metaPatch : List (String × JsVal)
  deriving Repr, DecidableEq

/-- The default generation configuration object of matchRuleIntent. -/
def defaultConfig : JsVal :=
  .obj [("questions", .num 10), ("difficulty", .str "middle"), ("type", .str "mcq")]

/-- The ROOT_MENU rules, also the default arm of the state switch. -/
def rootMenuBranch (is11 is12 help : Bool) : Option RuleHit :=
  if is11 then
    some ⟨"既存資料から問題を作成します。\n資料を選択してください（例: \"select doc: 123\"）。\n- 最近使った資料: 101, 102, 103\n- 設定は後から \"set: questions=10, difficulty=middle, type=mcq\" で変更可能です。",
      "FLOW_EXISTING_DOC_SELECT", [("lastChoice", .str "1-1")]⟩
  else if is12 then
    some ⟨"新規資料のアップロードから開始します。\nアップロード完了後、\"uploaded: <docId>\" と入力してください（例: \"uploaded: 201\"）。",
      "FLOW_UPLOAD_DOC_WAIT", [("lastChoice", .str "1-2")]⟩
  else if help then
    some ⟨"ヘルプ: 1-1 既存資料 / 1-2 新規アップロード から開始します。", "ROOT_MENU", []⟩
  else none

/-- The FLOW_EXISTING_DOC_SELECT rules. -/
def existingSelectBranch (home back : Bool) (selectDoc : Option (List Char))
    (meta : List (String × JsVal)) : Option RuleHit :=
  if home then some ⟨"メニューに戻ります。", "ROOT_MENU", []⟩
  else if back then some ⟨"一つ前に戻ります。", "ROOT_MENU", []⟩
  else
    match selectDoc with
    | some ds =>
        let docId : JsVal := .num (digitsToNat ds)
        let current := jsOr (objLookup meta "config") defaultConfig
        some ⟨"資料 " ++ jsShowVal docId ++ " を選択しました。\n現在の設定: questions=" ++
            jsShowO (jsProp current "questions") ++ ", difficulty=" ++
            jsShowO (jsProp current "difficulty") ++ ", type=" ++
            jsShowO (jsProp current "type") ++
            "\n変更する場合は \"set: questions=20, difficulty=hard\"、問題生成は \"run\" と入力してください。",
          "FLOW_EXISTING_DOC_CONFIG", [("docId", docId)]⟩
    | none =>
        some ⟨"資料を「select doc: <id>」で指定してください。", "FLOW_EXISTING_DOC_SELECT", []⟩

/-- The shared body of the FLOW_EXISTING_DOC_CONFIG and FLOW_UPLOAD_DOC_CONFIG
arms (the two switch cases are textually identical in the source except for
their own state name and their back target). -/
def configStateBranch (stateName backReply backTarget : String) (home back : Bool)
    (setCmd : Option (List (String × String))) (run : Bool)
    (meta : List (String × JsVal)) (now : String) : Option RuleHit :=
  if home then some ⟨"メニューに戻ります。", "ROOT_MENU", []⟩
  else if back then some ⟨backReply, backTarget, []⟩
  else
    match setCmd with
    | some kvs =>
        let prev := jsOr (objLookup meta "config") (.obj [])
        let questions := jsToNumber (jsCoalesce ((objLookup kvs "questions").map .str)
          (jsCoalesce (jsProp prev "questions") (.num 10)))
        let difficulty := jsCoalesce ((objLookup kvs "difficulty").map .str)
          (jsCoalesce (jsProp prev "difficulty") (.str "middle"))
        let qtype := jsCoalesce ((objLookup kvs "type").map .str)
          (jsCoalesce (jsProp prev "type") (.str "mcq"))
        let config : JsVal :=
          .obj [("questions", questions), ("difficulty", difficulty), ("type", qtype)]
        some ⟨"設定を更新しました。\nquestions=" ++ jsShowVal questions ++ ", difficulty=" ++
            jsShowVal difficulty ++ ", type=" ++ jsShowVal qtype ++
            "\n問題生成する場合は \"run\" と入力してください。",
          stateName, [("config", config)]⟩
    | none =>
        if run then
          let cfg := jsOr (objLookup meta "config") defaultConfig
          some ⟨"問題生成を開始します（ダミー）。\n資料=" ++ jsShowO (objLookup meta "docId") ++
              ", questions=" ++ jsShowO (jsProp cfg "questions") ++ ", difficulty=" ++
              jsShowO (jsProp cfg "difficulty") ++ ", type=" ++ jsShowO (jsProp cfg "type") ++
              "\n生成が完了しました。結果をプレビューできます。",
            "FLOW_QG_DONE", [("lastRunAt", .str now)]⟩
        else none

/-- The FLOW_UPLOAD_DOC_WAIT rules. -/
def uploadWaitBranch (home back : Bool) (uploaded : Option (List Char))
    (meta : List (String × JsVal)) : Option RuleHit :=
  if home then some ⟨"メニューに戻ります。", "ROOT_MENU", []⟩
  else if back then some ⟨"メニューに戻ります。", "ROOT_MENU", []⟩
  else
    match uploaded with
    | some ds =>
        let docId : JsVal := .num (digitsToNat ds)
        let current := jsOr (objLookup meta "config") defaultConfig
        some ⟨"アップロード完了を受け付けました。docId=" ++ jsShowVal docId ++
            "\n現在の設定: questions=" ++ jsShowO (jsProp current "questions") ++
            ", difficulty=" ++ jsShowO (jsProp current "difficulty") ++ ", type=" ++
            jsShowO (jsProp current "type") ++
            "\n必要に応じて \"set: ...\" で更新し、\"run\" で生成を開始してください。",
          "FLOW_UPLOAD_DOC_CONFIG", [("docId", docId)]⟩
    | none =>
        some ⟨"アップロード完了後は「uploaded: <docId>」と入力してください。",
          "FLOW_UPLOAD_DOC_WAIT", []⟩

/-- The FLOW_QG_DONE rules: only navigation, back routed on the branch tag
recorded at the root menu (strict string equality with 1-1). -/
def qgDoneBranch (home back : Bool) (meta : List (String × JsVal)) : Option RuleHit :=
  if home then some ⟨"メニューに戻ります。", "ROOT_MENU", []⟩
  else if back then
    some ⟨"設定に戻ります。",
      if objLookup meta "lastChoice" = some (JsVal.str "1-1") then "FLOW_EXISTING_DOC_CONFIG"
      else "FLOW_UPLOAD_DOC_CONFIG", []⟩
  else none

/-- matchRuleIntent of server.js: trim the input, evaluate the intent
regexes, then dispatch on the conversation state; the switch treats ROOT_MENU
and every unknown state (the default arm) identically. The state argument is
an Option so that the null and undefined states the callers can pass are
representable; the extra now argument makes the clock read of the run rules
explicit. -/
def matchRuleIntent (text : String) (state : Option String)
    (meta : List (String × JsVal)) (now : String) : Option RuleHit :=
  let t := (jsTrim text).data
  let setCmd := if setColonTest t then some (parseKV ⟨t⟩) else none
  if state = some "FLOW_EXISTING_DOC_SELECT" then
    existingSelectBranch (homeTest t) (backTest t) (selectDocExec t) meta
  else if state = some "FLOW_EXISTING_DOC_CONFIG" then
    configStateBranch "FLOW_EXISTING_DOC_CONFIG" "資料選択に戻ります。"
      "FLOW_EXISTING_DOC_SELECT" (homeTest t) (backTest t) setCmd (runTest t) meta now
  else if state = some "FLOW_UPLOAD_DOC_WAIT" then
    uploadWaitBranch (homeTest t) (backTest t) (uploadedExec t) meta
  else if state = some "FLOW_UPLOAD_DOC_CONFIG" then
    configStateBranch "FLOW_UPLOAD_DOC_CONFIG" "アップロード待ちに戻ります。"
      "FLOW_UPLOAD_DOC_WAIT" (homeTest t) (backTest t) setCmd (runTest t) meta now
  else if state = some "FLOW_QG_DONE" then
    qgDoneBranch (homeTest t) (backTest t) meta
  else
    rootMenuBranch (is11Test t) (is12Test t) (helpTest t)

/-- Agreement of two engine results up to the clock-stamped field: both are
no-match, or both match with the same reply, the same next state, and the same
metadata patch at every key other than lastRunAt. -/
def agreesUpToLastRunAt (a b : Option RuleHit) : Prop :=
  match a, b with
  | none, none => True
  | some x, some y =>
      x.reply = y.reply ∧ x.newState = y.newState ∧
        ∀ key, key ≠ "lastRunAt" → objLookup x.metaPatch key = objLookup y.metaPatch key
  | _, _ => False

/-! The conversation state store of db.js. A conversation row carries the two
columns the state operations touch: state and meta. The meta column stores
JSON text; JSON serialization round-trips on the values the server writes, so
the column is modelled at the parsed level as an optional JsVal (none is the
SQL NULL). -/

/-- The state and meta columns of one conversations row. -/
structure ConvRow where
  state : Option String
  meta : Option JsVal
  deriving Repr, DecidableEq

/-- setConversationState of db.js on an existing row (the function first
checks row existence and returns false otherwise; the claims are about the
existing-row path): the state column is overwritten, and the meta column is
overwritten by the JSON of the supplied meta when that meta is truthy, else
kept as it was (meta-question-stringify-else-null into SQL COALESCE). -/
def setConversationState (row : ConvRow) (state : Option String) (meta : Option JsVal) :
    ConvRow :=
  let metaStr : Option JsVal :=
    match meta with
    | some m => if jsTruthy m then some m else none
    | none => none
  { state := state,
    meta := match metaStr with
            | some m => some m
            | none => row.meta }

/-- Property read through the optional meta column. -/
def metaLookup (row : ConvRow) (key : String) : Option JsVal :=
  row.meta.bind (fun m => jsProp m key)

/-- The metadata write path of the chat endpoint (server.js, app.post
/api/chat): the stored meta fields are spread-merged with the metaPatch of the
matched rule and the merged object is handed to setConversationState. -/
def chatStoreStep (row : ConvRow) (metaFields : List (String × JsVal)) (hit : RuleHit) :
    ConvRow :=
  let newMeta := jsSpread metaFields hit.metaPatch
  setConversationState row (some hit.newState) (some (.obj newMeta))

/-! The job orchestrator of server.js (app.post /api/process/start and
app.get /api/process/progress): the progress ledger is one file per job id,
the registry is the in-process convJobMap. -/

/-- One progress record as written to a progress file. -/
structure ProgressRec where
  stage : String
  message : String
  deriving Repr, DecidableEq

/-- The record written by /api/process/start before launching stage 1. -/
def initialRecord : ProgressRec := ⟨"analysis", "内容分析処理: OCRを開始"⟩

/-- The record written when stage 1 exits with code 0, before stage 2 is
spawned. -/
def qaStartRecord : ProgressRec := ⟨"qa", "問題生成: 開始"⟩

/-- The record written when stage 2 exits with code 0. -/
def doneRecord : ProgressRec := ⟨"done", "完了"⟩

/-- Terminal observation of one spawned worker process: either the error
event fired (msg is the stringified error) or the exit event fired with a
code (none models the null code of a signal-terminated process). -/
inductive SpawnResult where
  | fail : String → SpawnResult
  | exited : Option Int → SpawnResult
  deriving Repr, DecidableEq

/-- Template rendering of an exit code (null renders as the word null). -/
def jsShowExit : Option Int → String
  | none => "null"
  | some n => toString n

/-- Observable actions of one job run, in program order: progress-file
writes, the registry insertion, and worker spawns (1 = worker.py,
2 = makeQA.py). -/
inductive JobEvent where
  | wrote : ProgressRec → JobEvent
  | registered : JobEvent
  | spawned : Nat → JobEvent
  deriving Repr, DecidableEq

/-- Events after stage 2 terminates (the exit and error handlers of the qa
process). -/
def stage2Events : SpawnResult → List JobEvent
  | .fail m => [.wrote ⟨"error", m⟩]
  | .exited c =>
      if c = some 0 then [.wrote doneRecord]
      else [.wrote ⟨"error", "qa exit " ++ jsShowExit c⟩]

/-- Events after stage 1 terminates (the exit and error handlers of the
worker process): abnormal termination writes the error record and halts;
exit 0 writes the qa record and only then spawns stage 2. -/
def stage1Events (r1 r2 : SpawnResult) : List JobEvent
  :=
  match r1 with
  | .fail m => [.wrote ⟨"error", m⟩]
  | .exited c =>
      if c = some 0 then .wrote qaStartRecord :: .spawned 2 :: stage2Events r2
      else [.wrote ⟨"error", "worker exit " ++ jsShowExit c⟩]

/-- The full observable event trace of one job whose stage 1 terminates as r1
and, when reached, whose stage 2 terminates as r2: /api/process/start writes
the initial record, registers the job for its conversation, spawns stage 1;
the rest is the continuation chain. -/
def jobEvents (r1 r2 : SpawnResult) : List JobEvent :=
  .wrote initialRecord :: .registered :: .spawned 1 :: stage1Events r1 r2

/-- Contents of one progress file as found by a reader: either text that
parses to a progress record, or text JSON.parse rejects. -/
inductive FileContent where
  | parses : ProgressRec → FileContent
  | malformed : String → FileContent
  deriving Repr, DecidableEq

/-- The server state the progress endpoints touch: the in-process convJobMap
(registry key, already in its user:conversation form, to job id) and the
progress directory (job id to file content; absence of a key is absence of
the file). -/
structure OrchState where
  convJobMap : List (String × String)
  files : List (String × FileContent)
  deriving Repr, DecidableEq

/-- The registry and ledger effects of /api/process/start for a fresh job id:
the initial record is written to the progress file of the job, then the
registry entry of the conversation is overwritten with the job id. -/
def startJobStep (key jobId : String) (s : OrchState) : OrchState :=
  { convJobMap := objSet s.convJobMap key jobId,
    files := objSet s.files jobId (.parses initialRecord) }

/-- A later progress write of a running job (any of the stage-transition
writes): the progress file of the job is overwritten in place. -/
def writeProgressFile (jobId : String) (c : FileContent) (s : OrchState) : OrchState :=
  { s with files := objSet s.files jobId c }

/-- A JS string-or-undefined is falsy when absent or empty. -/
def jsStrFalsy : Option String → Bool
  | none => true
  | some s => s = ""

/-- The sentinel returned by the progress endpoint when nothing is
resolvable. -/
def unknownRec : ProgressRec := ⟨"unknown", ""⟩

/-- The job-id resolution of /api/process/progress: take the explicit jobId
query parameter; when it is falsy and a conversationId was supplied, fall
back to the registry; a still-falsy result resolves to nothing. -/
def resolveJobId (qJobId convKey : Option String) (m : List (String × String)) :
    Option String :=
  let j1 : Option String :=
    if jsStrFalsy qJobId && !jsStrFalsy convKey then objLookup m (convKey.getD "")
    else qJobId
  if jsStrFalsy j1 then none else j1

/-- getProgress, the body of app.get /api/process/progress: resolve a job id,
read its progress file, parse it; every failure along the way (no id, no
file, unparseable file) yields the unknown sentinel rather than an error. -/
def getProgress (qJobId convKey : Option String) (s : OrchState) : ProgressRec :=
  match resolveJobId qJobId convKey s.convJobMap with
  | none => unknownRec
  | some j =>
      match objLookup s.files j with
      | none => unknownRec
      | some (.malformed _) => unknownRec
      | some (.parses rec) => rec

/-! General lemmas about the embedding. -/

theorem objLookup_objSet {α : Type} (l : List (String × α)) (k : String) (v : α)
    (key : String) :
    objLookup (objSet l k v) key = if k = key then some v else objLookup l key := by
  induction l with
  | nil => simp [objSet, objLookup]
  | cons p rest ih =>
      obtain ⟨k1, v1⟩ := p
      by_cases h1 : k1 = k
      · subst h1
        simp only [objSet, if_pos rfl, objLookup]
        by_cases h2 : k1 = key <;> simp [h2]
      · simp only [objSet, if_neg h1, objLookup]
        by_cases h2 : k1 = key
        · subst h2
          have : ¬ (k = k1) := fun h => h1 h.symm
          simp [this]
        · simp [h2, ih]

theorem objLookup_eq_none_of_not_mem {α : Type} (l : List (String × α)) (key : String)
    (h : key ∉ l.map Prod.fst) : objLookup l key = none := by
  induction l with
  | nil => rfl
  | cons p rest ih =>
      obtain ⟨k1, v1⟩ := p
      simp only [List.map_cons, List.mem_cons] at h
      have hk : ¬ (k1 = key) := fun he => h (Or.inl he.symm)
      simp only [objLookup, if_neg hk]
      exact ih (fun hm => h (Or.inr hm))

/-- Looking up a key in a spread merge: keys of the patch win, keys absent from
the patch fall through to the base, provided the patch has unique keys. -/
theorem objLookup_jsSpread (patch : List (String × JsVal))
    (hN : (patch.map Prod.fst).Nodup) (base : List (String × JsVal)) (key : String) :
    objLookup (jsSpread base patch) key =
      (objLookup patch key).orElse (fun _ => objLookup base key) := by
  induction patch generalizing base with
  | nil => simp [jsSpread, objLookup, Option.orElse]
  | cons p rest ih =>
      obtain ⟨k0, v0⟩ := p
      simp only [List.map_cons, List.nodup_cons] at hN
      obtain ⟨hk0, hrest⟩ := hN
      have step : jsSpread base ((k0, v0) :: rest) = jsSpread (objSet base k0 v0) rest := rfl
      rw [step, ih hrest]
      by_cases h : k0 = key
      · subst h
        have hnone : objLookup rest k0 = none := objLookup_eq_none_of_not_mem rest k0 hk0
        rw [hnone, objLookup_objSet]
        simp [objLookup]
      · have hl : objLookup ((k0, v0) :: rest) key = objLookup rest key := by
          simp [objLookup, h]
        rw [hl, objLookup_objSet, if_neg h]

/-- Spreading a one-field patch makes that field readable back. -/
theorem objLookup_jsSpread_single (base : List (String × JsVal)) (k : String) (v : JsVal) :
    objLookup (jsSpread base [(k, v)]) k = some v := by
  have : jsSpread base [(k, v)] = objSet base k v := rfl
  rw [this, objLookup_objSet, if_pos rfl]

/-- An or-default on a falsy operand yields the default. -/
theorem jsOr_of_falsy (o : Option JsVal) (h : jsTruthyO o = false) (d : JsVal) :
    jsOr o d = d := by
  cases o with
  | none => rfl
  | some v =>
      simp only [jsTruthyO] at h
      simp [jsOr, h]

theorem dropWhile_all_false {α : Type} {p : α → Bool} :
    ∀ l : List α, (∀ c ∈ l, p c = false) → l.dropWhile p = l
  | [], _ => rfl
  | c :: cs, h => by
      have hc : p c = false := h c (List.mem_cons_self c cs)
      simp [List.dropWhile_cons, hc]

theorem jsTrimList_all_not_ws (l : List Char) (h : ∀ c ∈ l, isJsWs c = false) :
    jsTrimList l = l := by
  unfold jsTrimList
  rw [dropWhile_all_false l h]
  rw [dropWhile_all_false l.reverse (fun c hc => h c (List.mem_reverse.mp hc))]
  exact l.reverse_reverse

theorem splitBy_all_false {p : Char → Bool} :
    ∀ l : List Char, (∀ c ∈ l, p c = false) → splitBy p l = [l]
  | [], _ => rfl
  | c :: cs, h => by
      have hc : p c = false := h c (List.mem_cons_self c cs)
      have ih := splitBy_all_false cs (fun d hd => h d (List.mem_cons_of_mem c hd))
      simp [splitBy, hc, ih]

theorem splitBy_append_sep {p : Char → Bool} (s : Char) (hs : p s = true) :
    ∀ a b : List Char, (∀ c ∈ a, p c = false) →
      splitBy p (a ++ s :: b) = a :: splitBy p b
  | [], b, _ => by simp [splitBy, hs]
  | c :: a, b, h => by
      have hc : p c = false := h c (List.mem_cons_self c a)
      have ih := splitBy_append_sep s hs a b (fun d hd => h d (List.mem_cons_of_mem c hd))
      simp [splitBy, hc, ih]

/-- The back regex and the home regex are disjoint: an input that is the whole
word back (or its Japanese form) is not the whole word home (or the menu
word). -/
theorem homeTest_eq_false_of_backTest (t : List Char) (h : backTest t = true) :
    homeTest t = false := by
  simp only [backTest, Bool.or_eq_true] at h
  rcases h with h | h
  · simp only [eqCI, beq_iff_eq] at h
    simp only [homeTest, eqCI, h, Bool.or_eq_false_iff]
    constructor
    · decide
    · by_contra hb
      simp only [Bool.not_eq_false, beq_iff_eq] at hb
      rw [hb] at h
      exact absurd h (by decide)
  · simp only [beq_iff_eq] at h
    subst h
    decide

theorem agreesUpToLastRunAt_refl (a : Option RuleHit) : agreesUpToLastRunAt a a := by
  cases a with
  | none => trivial
  | some x => exact ⟨rfl, rfl, fun _ _ => rfl⟩

/-- The clock only ever reaches the lastRunAt stamp of the run rule: the two
config-state bodies agree up to that field across any two clock values. -/
theorem configStateBranch_agrees (sn br bt : String) (home back : Bool)
    (setCmd : Option (List (String × String))) (rn : Bool)
    (meta : List (String × JsVal)) (n1 n2 : String) :
    agreesUpToLastRunAt (configStateBranch sn br bt home back setCmd rn meta n1)
      (configStateBranch sn br bt home back setCmd rn meta n2) := by
  cases home with
  | true => exact agreesUpToLastRunAt_refl _
  | false =>
      cases back with
      | true => exact agreesUpToLastRunAt_refl _
      | false =>
          cases setCmd with
          | some kvs => exact agreesUpToLastRunAt_refl _
          | none =>
              cases rn with
              | false => trivial
              | true =>
                  refine ⟨rfl, rfl, fun key hkey => ?_⟩
                  simp only [objLookup]
                  rw [if_neg (fun e => hkey e.symm), if_neg (fun e => hkey e.symm)]

/-- Reduction of the set-command rule of a config state once the prior
configuration object is known. -/
theorem configStateBranch_set_eq (sn br bt : String) (kvs : List (String × String))
    (rn : Bool) (meta : List (String × JsVal)) (now : String) (prevV : JsVal)
    (hprev : jsOr (objLookup meta "config") (JsVal.obj []) = prevV) :
    configStateBranch sn br bt false false (some kvs) rn meta now =
      some ⟨"設定を更新しました。\nquestions=" ++
          jsShowVal (jsToNumber (jsCoalesce ((objLookup kvs "questions").map JsVal.str)
            (jsCoalesce (jsProp prevV "questions") (JsVal.num 10)))) ++ ", difficulty=" ++
          jsShowVal (jsCoalesce ((objLookup kvs "difficulty").map JsVal.str)
            (jsCoalesce (jsProp prevV "difficulty") (JsVal.str "middle"))) ++ ", type=" ++
          jsShowVal (jsCoalesce ((objLookup kvs "type").map JsVal.str)
            (jsCoalesce (jsProp prevV "type") (JsVal.str "mcq"))) ++
          "\n問題生成する場合は \"run\" と入力してください。",
        sn,
        [("config", JsVal.obj [
          ("questions", jsToNumber (jsCoalesce ((objLookup kvs "questions").map JsVal.str)
            (jsCoalesce (jsProp prevV "questions") (JsVal.num 10)))),
          ("difficulty", jsCoalesce ((objLookup kvs "difficulty").map JsVal.str)
            (jsCoalesce (jsProp prevV "difficulty") (JsVal.str "middle"))),
          ("type", jsCoalesce ((objLookup kvs "type").map JsVal.str)
            (jsCoalesce (jsProp prevV "type") (JsVal.str "mcq")))])]⟩ := by
  subst hprev
  rfl

/-! Claim theorems. -/

/-- C1, counterexample: the dialog engine is not deterministic in its three
inputs alone; the run rule stamps the wall clock into the metadata patch, so
two calls with identical text, state and metadata but different clock values
return different results. -/
theorem C1_counterexample :
    matchRuleIntent "run" (some "FLOW_EXISTING_DOC_CONFIG") [] "2024-01-01T00:00:00.000Z" ≠
      matchRuleIntent "run" (some "FLOW_EXISTING_DOC_CONFIG") [] "2024-01-01T00:00:01.000Z" := by
  decide

/-- C1, amended: matchRuleIntent is a pure function of text, state, metadata
and the current clock; across any two clock values the reply, the next state
and every metadata-patch field other than the clock-stamped lastRunAt
coincide, for all inputs (and the embedding is mutation-free by
construction). -/
theorem C1_deterministic_up_to_clock (text : String) (state : Option String)
    (meta : List (String × JsVal)) (n1 n2 : String) :
    agreesUpToLastRunAt (matchRuleIntent text state meta n1)
      (matchRuleIntent text state meta n2) := by
  unfold matchRuleIntent
  by_cases h1 : state = some "FLOW_EXISTING_DOC_SELECT"
  · simp only [if_pos h1]
    exact agreesUpToLastRunAt_refl _
  · simp only [if_neg h1]
    by_cases h2 : state = some "FLOW_EXISTING_DOC_CONFIG"
    · simp only [if_pos h2]
      exact configStateBranch_agrees _ _ _ _ _ _ _ _ _ _
    · simp only [if_neg h2]
      by_cases h3 : state = some "FLOW_UPLOAD_DOC_WAIT"
      · simp only [if_pos h3]
        exact agreesUpToLastRunAt_refl _
      · simp only [if_neg h3]
        by_cases h4 : state = some "FLOW_UPLOAD_DOC_CONFIG"
        · simp only [if_pos h4]
          exact configStateBranch_agrees _ _ _ _ _ _ _ _ _ _
        · simp only [if_neg h4]
          by_cases h5 : state = some "FLOW_QG_DONE"
          · simp only [if_pos h5]
            exact agreesUpToLastRunAt_refl _
          · simp only [if_neg h5]
            exact agreesUpToLastRunAt_refl _

/-- C10: for every state value outside the six dialog states, null and
undefined included (the none case) and the extra scenario-endpoint states
included, matchRuleIntent behaves exactly as in ROOT_MENU, for every text,
metadata and clock: the switch default arm is shared with the ROOT_MENU
case. -/
theorem C10_unknown_state_behaves_as_root (text : String) (state : Option String)
    (meta : List (String × JsVal)) (now : String)
    (h : state ∉ ([some "ROOT_MENU", some "FLOW_EXISTING_DOC_SELECT",
      some "FLOW_EXISTING_DOC_CONFIG", some "FLOW_UPLOAD_DOC_WAIT",
      some "FLOW_UPLOAD_DOC_CONFIG", some "FLOW_QG_DONE"] : List (Option String))) :
    matchRuleIntent text state meta now = matchRuleIntent text (some "ROOT_MENU") meta now := by
  simp only [List.mem_cons, List.not_mem_nil, or_false, not_or] at h
  obtain ⟨-, h1, h2, h3, h4, h5⟩ := h
  unfold matchRuleIntent
  simp only [if_neg h1, if_neg h2, if_neg h3, if_neg h4, if_neg h5]
  rfl

/-- C10, witness: the scenario-endpoint state FLOW_QG_TOPIC is outside the
six dialog states and is handled by the root-menu rules. -/
theorem C10_witness :
    matchRuleIntent "help" (some "FLOW_QG_TOPIC") [] "T" =
      matchRuleIntent "help" (some "ROOT_MENU") [] "T" :=
  C10_unknown_state_behaves_as_root "help" (some "FLOW_QG_TOPIC") [] "T" (by decide)

/-- C9: in FLOW_QG_DONE, for every metadata mapping, a back command routes to
the existing-document config state exactly when the recorded branch tag is the
string 1-1, and to the upload config state for every other value of the tag,
absent included. -/
theorem C9_back_routing (text : String) (meta : List (String × JsVal)) (now : String)
    (hb : backTest (jsTrim text).data = true) :
    matchRuleIntent text (some "FLOW_QG_DONE") meta now =
      some ⟨"設定に戻ります。",
        if objLookup meta "lastChoice" = some (JsVal.str "1-1") then "FLOW_EXISTING_DOC_CONFIG"
        else "FLOW_UPLOAD_DOC_CONFIG", []⟩ ∧
    ((if objLookup meta "lastChoice" = some (JsVal.str "1-1") then "FLOW_EXISTING_DOC_CONFIG"
      else "FLOW_UPLOAD_DOC_CONFIG") = "FLOW_EXISTING_DOC_CONFIG" ↔
      objLookup meta "lastChoice" = some (JsVal.str "1-1")) := by
  have hh := homeTest_eq_false_of_backTest _ hb
  constructor
  · have e : matchRuleIntent text (some "FLOW_QG_DONE") meta now =
        qgDoneBranch (homeTest (jsTrim text).data) (backTest (jsTrim text).data) meta := rfl
    rw [e, hh, hb]
    rfl
  · by_cases hc : objLookup meta "lastChoice" = some (JsVal.str "1-1")
    · simp [hc]
    · simp [hc]

/-- C9, witness: the back command evaluated on the 1-1 tag and on an absent
tag. -/
theorem C9_witness :
    (matchRuleIntent "back" (some "FLOW_QG_DONE") [("lastChoice", JsVal.str "1-1")] "T" =
      some ⟨"設定に戻ります。",
        if objLookup [("lastChoice", JsVal.str "1-1")] "lastChoice" = some (JsVal.str "1-1") then
          "FLOW_EXISTING_DOC_CONFIG"
        else "FLOW_UPLOAD_DOC_CONFIG", []⟩ ∧
    ((if objLookup [("lastChoice", JsVal.str "1-1")] "lastChoice" = some (JsVal.str "1-1") then
        "FLOW_EXISTING_DOC_CONFIG"
      else "FLOW_UPLOAD_DOC_CONFIG") = "FLOW_EXISTING_DOC_CONFIG" ↔
      objLookup [("lastChoice", JsVal.str "1-1")] "lastChoice" = some (JsVal.str "1-1"))) :=
  C9_back_routing "back" [("lastChoice", JsVal.str "1-1")] "T" (by decide)

/-- C5: in either config state with no prior configuration, setting
questions to 20 and difficulty to hard, then on the resulting metadata setting
only difficulty to easy, yields the merged configuration with questions 20,
difficulty easy, type mcq: keys unspecified in the second command persist
from the first merge. -/
theorem C5_config_merge_persists (stateName : String)
    (hst : stateName = "FLOW_EXISTING_DOC_CONFIG" ∨ stateName = "FLOW_UPLOAD_DOC_CONFIG")
    (meta : List (String × JsVal)) (hcfg : jsTruthyO (objLookup meta "config") = false)
    (n1 n2 : String) :
    matchRuleIntent "set: questions=20, difficulty=hard" (some stateName) meta n1 =
      some ⟨"設定を更新しました。\nquestions=20, difficulty=hard, type=mcq\n問題生成する場合は \"run\" と入力してください。",
        stateName,
        [("config", JsVal.obj [("questions", JsVal.num 20), ("difficulty", JsVal.str "hard"),
          ("type", JsVal.str "mcq")])]⟩ ∧
    matchRuleIntent "set: difficulty=easy" (some stateName)
      (jsSpread meta [("config", JsVal.obj [("questions", JsVal.num 20),
        ("difficulty", JsVal.str "hard"), ("type", JsVal.str "mcq")])]) n2 =
      some ⟨"設定を更新しました。\nquestions=20, difficulty=easy, type=mcq\n問題生成する場合は \"run\" と入力してください。",
        stateName,
        [("config", JsVal.obj [("questions", JsVal.num 20), ("difficulty", JsVal.str "easy"),
          ("type", JsVal.str "mcq")])]⟩ := by
  have hprev1 := jsOr_of_falsy _ hcfg (JsVal.obj [])
  have hlook : objLookup (jsSpread meta [("config", JsVal.obj [("questions", JsVal.num 20),
      ("difficulty", JsVal.str "hard"), ("type", JsVal.str "mcq")])]) "config" =
      some (JsVal.obj [("questions", JsVal.num 20), ("difficulty", JsVal.str "hard"),
        ("type", JsVal.str "mcq")]) :=
    objLookup_jsSpread_single meta _ _
  have hprev2 : jsOr (objLookup (jsSpread meta [("config", JsVal.obj [("questions", JsVal.num 20),
      ("difficulty", JsVal.str "hard"), ("type", JsVal.str "mcq")])]) "config") (JsVal.obj []) =
      JsVal.obj [("questions", JsVal.num 20), ("difficulty", JsVal.str "hard"),
        ("type", JsVal.str "mcq")] := by
    rw [hlook]
    rfl
  rcases hst with hst | hst <;> subst hst
  · constructor
    · have e1 : matchRuleIntent "set: questions=20, difficulty=hard"
          (some "FLOW_EXISTING_DOC_CONFIG") meta n1 =
          configStateBranch "FLOW_EXISTING_DOC_CONFIG" "資料選択に戻ります。"
            "FLOW_EXISTING_DOC_SELECT" false false
            (some [("questions", "20"), ("difficulty", "hard")]) false meta n1 := rfl
      rw [e1, configStateBranch_set_eq _ _ _ _ _ _ _ _ hprev1]
      rfl
    · have e2 : matchRuleIntent "set: difficulty=easy"
          (some "FLOW_EXISTING_DOC_CONFIG")
          (jsSpread meta [("config", JsVal.obj [("questions", JsVal.num 20),
            ("difficulty", JsVal.str "hard"), ("type", JsVal.str "mcq")])]) n2 =
          configStateBranch "FLOW_EXISTING_DOC_CONFIG" "資料選択に戻ります。"
            "FLOW_EXISTING_DOC_SELECT" false false
            (some [("difficulty", "easy")]) false
            (jsSpread meta [("config", JsVal.obj [("questions", JsVal.num 20),
              ("difficulty", JsVal.str "hard"), ("type", JsVal.str "mcq")])]) n2 := rfl
      rw [e2, configStateBranch_set_eq _ _ _ _ _ _ _ _ hprev2]
      rfl
  · constructor
    · have e1 : matchRuleIntent "set: questions=20, difficulty=hard"
          (some "FLOW_UPLOAD_DOC_CONFIG") meta n1 =
          configStateBranch "FLOW_UPLOAD_DOC_CONFIG" "アップロード待ちに戻ります。"
            "FLOW_UPLOAD_DOC_WAIT" false false
            (some [("questions", "20"), ("difficulty", "hard")]) false meta n1 := rfl
      rw [e1, configStateBranch_set_eq _ _ _ _ _ _ _ _ hprev1]
      rfl
    · have e2 : matchRuleIntent "set: difficulty=easy"
          (some "FLOW_UPLOAD_DOC_CONFIG")
          (jsSpread meta [("config", JsVal.obj [("questions", JsVal.num 20),
            ("difficulty", JsVal.str "hard"), ("type", JsVal.str "mcq")])]) n2 =
          configStateBranch "FLOW_UPLOAD_DOC_CONFIG" "アップロード待ちに戻ります。"
            "FLOW_UPLOAD_DOC_WAIT" false false
            (some [("difficulty", "easy")]) false
            (jsSpread meta [("config", JsVal.obj [("questions", JsVal.num 20),
              ("difficulty", JsVal.str "hard"), ("type", JsVal.str "mcq")])]) n2 := rfl
      rw [e2, configStateBranch_set_eq _ _ _ _ _ _ _ _ hprev2]
      rfl

/-- C5, witness: the two-step merge evaluated in the existing-document config
state starting from empty metadata. -/
theorem C5_witness :
    matchRuleIntent "set: questions=20, difficulty=hard"
      (some "FLOW_EXISTING_DOC_CONFIG") [] "T0" =
      some ⟨"設定を更新しました。\nquestions=20, difficulty=hard, type=mcq\n問題生成する場合は \"run\" と入力してください。",
        "FLOW_EXISTING_DOC_CONFIG",
        [("config", JsVal.obj [("questions", JsVal.num 20), ("difficulty", JsVal.str "hard"),
          ("type", JsVal.str "mcq")])]⟩ ∧
    matchRuleIntent "set: difficulty=easy" (some "FLOW_EXISTING_DOC_CONFIG")
      (jsSpread [] [("config", JsVal.obj [("questions", JsVal.num 20),
        ("difficulty", JsVal.str "hard"), ("type", JsVal.str "mcq")])]) "T1" =
      some ⟨"設定を更新しました。\nquestions=20, difficulty=easy, type=mcq\n問題生成する場合は \"run\" と入力してください。",
        "FLOW_EXISTING_DOC_CONFIG",
        [("config", JsVal.obj [("questions", JsVal.num 20), ("difficulty", JsVal.str "easy"),
          ("type", JsVal.str "mcq")])]⟩ :=
  C5_config_merge_persists "FLOW_EXISTING_DOC_CONFIG" (Or.inl rfl) [] rfl "T0" "T1"

/-- C4, counterexample: a pair whose value contains an equals sign does not
keep the whole remainder after the first equals sign; the JS split cuts at
every equals sign and only the first two segments survive, so the value of
the pair a=b=c is b, not b=c. -/
theorem C4_counterexample :
    objLookup (parseKV "set: a=b=c") "a" = some "b" ∧
    (some "b" : Option String) ≠ some "b=c" := by
  decide

/-- C4, amended: the set-command parser splits the input into pairs on commas
and whitespace and splits each pair on every equals sign, keeping the first
segment as the (lower-cased) key and the second segment as the value; text
after a second equals sign is dropped. For a single pair made of a key, a
first value segment and a remainder, all free of separators and of further
equals signs in the key and first segment, the parse is exactly the
lower-cased key bound to the first value segment. -/
theorem C4_pair_split_amended (k v r : List Char)
    (hk : k ≠ []) (hv : v ≠ [])
    (hkc : ∀ c ∈ k, isSepChar c = false ∧ (c == '=') = false)
    (hvc : ∀ c ∈ v, isSepChar c = false ∧ (c == '=') = false)
    (hrc : ∀ c ∈ r, isSepChar c = false) :
    parseKV ⟨"set: ".data ++ (k ++ ('=' :: (v ++ ('=' :: r))))⟩ =
      [(lowerStr ⟨k⟩, (⟨v⟩ : String))] := by
  obtain ⟨c0, k1, rfl⟩ : ∃ c0 k1, k = c0 :: k1 := by
    cases k with
    | nil => exact absurd rfl hk
    | cons a b => exact ⟨a, b, rfl⟩
  have hws0 : isJsWs c0 = false := by
    have h1 := (hkc c0 (List.mem_cons_self _ _)).1
    simp only [isSepChar, Bool.or_eq_false_iff] at h1
    exact h1.2
  have hsep : ∀ c ∈ (c0 :: k1) ++ ('=' :: (v ++ ('=' :: r))), isSepChar c = false := by
    intro c hc
    rcases List.mem_append.mp hc with hc | hc
    · exact (hkc c hc).1
    · rcases List.mem_cons.mp hc with rfl | hc
      · rfl
      · rcases List.mem_append.mp hc with hc | hc
        · exact (hvc c hc).1
        · rcases List.mem_cons.mp hc with rfl | hc
          · rfl
          · exact hrc c hc
  have hwsAll : ∀ c ∈ (c0 :: k1) ++ ('=' :: (v ++ ('=' :: r))), isJsWs c = false := by
    intro c hc
    have h1 := hsep c hc
    simp only [isSepChar, Bool.or_eq_false_iff] at h1
    exact h1.2
  have em0 : stripSetPrefix ("set: ".data ++ ((c0 :: k1) ++ ('=' :: (v ++ ('=' :: r))))) =
      List.dropWhile isJsWs ((c0 :: k1) ++ ('=' :: (v ++ ('=' :: r)))) := rfl
  have em1 : List.dropWhile isJsWs ((c0 :: k1) ++ ('=' :: (v ++ ('=' :: r)))) =
      (c0 :: k1) ++ ('=' :: (v ++ ('=' :: r))) := by
    show List.dropWhile isJsWs (c0 :: (k1 ++ ('=' :: (v ++ ('=' :: r))))) = _
    rw [List.dropWhile_cons, if_neg (by simp [hws0])]
    rfl
  have hsplit : splitBy isSepChar ((c0 :: k1) ++ ('=' :: (v ++ ('=' :: r)))) =
      [(c0 :: k1) ++ ('=' :: (v ++ ('=' :: r)))] :=
    splitBy_all_false _ hsep
  have htrim : jsTrimList ((c0 :: k1) ++ ('=' :: (v ++ ('=' :: r)))) =
      (c0 :: k1) ++ ('=' :: (v ++ ('=' :: r))) :=
    jsTrimList_all_not_ws _ hwsAll
  have hs1 : splitBy (fun c => c == '=') ((c0 :: k1) ++ ('=' :: (v ++ ('=' :: r)))) =
      (c0 :: k1) :: splitBy (fun c => c == '=') (v ++ ('=' :: r)) :=
    splitBy_append_sep '=' rfl _ _ (fun c hc => (hkc c hc).2)
  have hs2 : splitBy (fun c => c == '=') (v ++ ('=' :: r)) =
      v :: splitBy (fun c => c == '=') r :=
    splitBy_append_sep '=' rfl _ _ (fun c hc => (hvc c hc).2)
  have htk : jsTrimList (c0 :: k1) = c0 :: k1 :=
    jsTrimList_all_not_ws _ (fun c hc => hwsAll c (List.mem_append.mpr (Or.inl hc)))
  have htv : jsTrimList v = v :=
    jsTrimList_all_not_ws _ (fun c hc =>
      hwsAll c (List.mem_append.mpr (Or.inr (List.mem_cons_of_mem _
        (List.mem_append.mpr (Or.inl hc))))))
  have estart : parseKV ⟨"set: ".data ++ ((c0 :: k1) ++ ('=' :: (v ++ ('=' :: r))))⟩ =
      (((splitBy isSepChar (stripSetPrefix ("set: ".data ++
          ((c0 :: k1) ++ ('=' :: (v ++ ('=' :: r))))))).map jsTrimList).filter
        (fun s => s != [])).foldl
        (fun out kv =>
          match (splitBy (fun c => c == '=') kv).map jsTrimList with
          | kk :: vv :: _ =>
              if kk ≠ [] ∧ vv ≠ [] then objSet out (lowerStr ⟨kk⟩) (⟨vv⟩ : String) else out
          | _ => out) [] := rfl
  rw [estart, em0, em1, hsplit]
  simp only [List.map_cons, List.map_nil, htrim]
  rw [List.filter_cons, if_pos (by rfl)]
  simp only [List.filter_nil, List.foldl_cons, List.foldl_nil]
  rw [hs1, hs2]
  simp only [List.map_cons, htk, htv]
  rw [if_pos ⟨List.cons_ne_nil c0 k1, hv⟩]
  rfl

/-- C4, amended, witness: the pair a=b=c parses to key a with value b. -/
theorem C4_pair_split_amended_witness :
    parseKV ⟨"set: ".data ++ ('a' :: [] ++ ('=' :: ('b' :: [] ++ ('=' :: ('c' :: [])))))⟩ =
      [(lowerStr ⟨'a' :: []⟩, (⟨'b' :: []⟩ : String))] :=
  C4_pair_split_amended ('a' :: []) ('b' :: []) ('c' :: [])
    (by decide) (by decide) (by decide) (by decide) (by decide)

/-- C2, counterexample: setConversationState does not merge; a non-null
metadata argument wholly replaces the stored metadata, so a key present in
the stored mapping and absent from the argument is dropped rather than
preserved. -/
theorem C2_counterexample :
    metaLookup (setConversationState
      ⟨some "FLOW_EXISTING_DOC_CONFIG", some (.obj [("a", .num 1), ("b", .num 2)])⟩
      (some "FLOW_EXISTING_DOC_CONFIG") (some (.obj [("a", .num 3)]))) "b" = none ∧
    (none : Option JsVal) ≠ some (.num 2) := by
  decide

/-- C2, amended: setConversationState itself has replacement semantics: a
truthy metadata argument becomes the whole stored metadata, a null argument
preserves the stored metadata through COALESCE; the claimed shallow-merge
behaviour belongs to the chat write path, which spreads the stored fields
with the patch before calling setConversationState, and that composition
does satisfy the merge property: patch keys take the patch value, other keys
keep the stored value. -/
theorem C2_replacement_and_caller_merge :
    (∀ (row : ConvRow) (st : Option String) (P : JsVal), jsTruthy P = true →
      (setConversationState row st (some P)).meta = some P) ∧
    (∀ (row : ConvRow) (st : Option String),
      (setConversationState row st none).meta = row.meta) ∧
    (∀ (row : ConvRow) (st : Option String) (M patch : List (String × JsVal)),
      (patch.map Prod.fst).Nodup → ∀ key,
        metaLookup (setConversationState row st (some (.obj (jsSpread M patch)))) key =
          (objLookup patch key).orElse (fun _ => objLookup M key)) := by
  refine ⟨fun row st P hP => ?_, fun row st => rfl, fun row st M patch hN key => ?_⟩
  · simp [setConversationState, hP]
  · have hobj : (setConversationState row st (some (.obj (jsSpread M patch)))).meta =
        some (.obj (jsSpread M patch)) := by
      simp [setConversationState, jsTruthy]
    simp only [metaLookup, hobj, Option.bind_some, jsProp]
    exact objLookup_jsSpread patch hN M key

/-- C2, amended, witness: replacement, null-preservation and the caller-side
merge evaluated on concrete rows. -/
theorem C2_replacement_and_caller_merge_witness :
    (setConversationState ⟨some "S", some (.obj [("a", .num 1)])⟩ (some "S")
      (some (.obj [("a", .num 3)]))).meta = some (.obj [("a", .num 3)]) ∧
    (setConversationState ⟨some "S", some (.obj [("a", .num 1)])⟩ (some "S") none).meta =
      some (.obj [("a", .num 1)]) ∧
    metaLookup (setConversationState ⟨some "S", some (.obj [("a", .num 1)])⟩ (some "S")
      (some (.obj (jsSpread [("a", .num 1), ("b", .num 2)] [("a", .num 3)])))) "b" =
      (objLookup [("a", JsVal.num 3)] "b").orElse
        (fun _ => objLookup [("a", JsVal.num 1), ("b", JsVal.num 2)] "b") :=
  ⟨C2_replacement_and_caller_merge.1 ⟨some "S", some (.obj [("a", .num 1)])⟩ (some "S")
      (.obj [("a", .num 3)]) rfl,
    C2_replacement_and_caller_merge.2.1 ⟨some "S", some (.obj [("a", .num 1)])⟩ (some "S"),
    C2_replacement_and_caller_merge.2.2 ⟨some "S", some (.obj [("a", .num 1)])⟩ (some "S")
      [("a", .num 1), ("b", .num 2)] [("a", .num 3)] (by decide) "b"⟩

/-- C3, counterexample: the orchestrator does not use the stage vocabulary of
the claim; the first record written for a started job has stage analysis
(message in Japanese), not the claimed extraction with message starting, and
analysis is outside the claimed vocabulary. -/
theorem C3_counterexample :
    (jobEvents (.exited (some 0)) (.exited (some 0))).head? =
      some (.wrote ⟨"analysis", "内容分析処理: OCRを開始"⟩) ∧
    "analysis" ∉ (["extraction", "generation", "done", "error", "unknown"] : List String) ∧
    (⟨"analysis", "内容分析処理: OCRを開始"⟩ : ProgressRec) ≠ ⟨"extraction", "starting"⟩ := by
  decide

/-- C3, amended: every progress record the orchestrator writes carries a
stage drawn from analysis, qa, done, error; the first record written for
every started job is exactly the analysis record with the OCR-start message,
and on stage-1 success the qa record with the generation-start message is
written before stage 2 is spawned. -/
theorem C3_stage_vocabulary_and_order (r1 r2 : SpawnResult) :
    (∀ rec : ProgressRec, JobEvent.wrote rec ∈ jobEvents r1 r2 →
      rec.stage ∈ (["analysis", "qa", "done", "error"] : List String)) ∧
    (jobEvents r1 r2).head? = some (.wrote initialRecord) ∧
    (r1 = .exited (some 0) →
      stage1Events r1 r2 = .wrote qaStartRecord :: .spawned 2 :: stage2Events r2) := by
  refine ⟨?_, rfl, ?_⟩
  · intro rec hmem
    cases r1 with
    | fail m =>
        simp [jobEvents, stage1Events] at hmem
        rcases hmem with rfl | rfl
        · simp [initialRecord]
        · simp
    | exited c =>
        by_cases hc : c = some 0
        · subst hc
          cases r2 with
          | fail m2 =>
              simp [jobEvents, stage1Events, stage2Events] at hmem
              rcases hmem with rfl | rfl | rfl
              · simp [initialRecord]
              · simp [qaStartRecord]
              · simp
          | exited c2 =>
              by_cases hc2 : c2 = some 0
              · subst hc2
                simp [jobEvents, stage1Events, stage2Events] at hmem
                rcases hmem with rfl | rfl | rfl
                · simp [initialRecord]
                · simp [qaStartRecord]
                · simp [doneRecord]
              · simp [jobEvents, stage1Events, stage2Events, hc2] at hmem
                rcases hmem with rfl | rfl | rfl
                · simp [initialRecord]
                · simp [qaStartRecord]
                · simp
        · simp [jobEvents, stage1Events, hc] at hmem
          rcases hmem with rfl | rfl
          · simp [initialRecord]
          · simp
  · intro h1
    subst h1
    simp [stage1Events]

/-- C3, amended, witness: the stage-1-success ordering discharged on a
concrete successful stage 1 and failing stage 2. -/
theorem C3_stage_vocabulary_and_order_witness :
    (jobEvents (.exited (some 0)) (.exited (some 1))).head? = some (.wrote initialRecord) ∧
    stage1Events (.exited (some 0)) (.exited (some 1)) =
      .wrote qaStartRecord :: .spawned 2 :: stage2Events (.exited (some 1)) :=
  ⟨(C3_stage_vocabulary_and_order (.exited (some 0)) (.exited (some 1))).2.1,
    (C3_stage_vocabulary_and_order (.exited (some 0)) (.exited (some 1))).2.2 rfl⟩

/-- C6: for every job whose stage 1 terminates abnormally (non-zero or null
exit code, or launch failure), the only further event is the write of an
error record with a diagnostic message; stage 2 is never spawned and no
qa-stage (generation) record is ever written for that job. -/
theorem C6_stage1_failure_halts (r1 r2 : SpawnResult) (h : r1 ≠ .exited (some 0)) :
    (∃ msg, stage1Events r1 r2 = [.wrote ⟨"error", msg⟩]) ∧
    JobEvent.spawned 2 ∉ jobEvents r1 r2 ∧
    (∀ rec : ProgressRec, JobEvent.wrote rec ∈ jobEvents r1 r2 → rec.stage ≠ "qa") := by
  have hone : ∃ msg, stage1Events r1 r2 = [.wrote ⟨"error", msg⟩] := by
    cases r1 with
    | fail m => exact ⟨m, rfl⟩
    | exited c =>
        have hc : ¬ (c = some 0) := fun he => h (by rw [he])
        exact ⟨"worker exit " ++ jsShowExit c, by simp [stage1Events, if_neg hc]⟩
  obtain ⟨msg, hmsg⟩ := hone
  refine ⟨⟨msg, hmsg⟩, ?_, ?_⟩
  · simp [jobEvents, hmsg]
  · intro rec hmem
    simp [jobEvents, hmsg] at hmem
    rcases hmem with rfl | rfl
    · simp [initialRecord]
    · simp

/-- C6, witness: a stage-1 exit with code 1 halts the chain. -/
theorem C6_stage1_failure_halts_witness :
    (∃ msg, stage1Events (.exited (some 1)) (.exited (some 0)) = [.wrote ⟨"error", msg⟩]) ∧
    JobEvent.spawned 2 ∉ jobEvents (.exited (some 1)) (.exited (some 0)) ∧
    (∀ rec : ProgressRec,
      JobEvent.wrote rec ∈ jobEvents (.exited (some 1)) (.exited (some 0)) →
        rec.stage ≠ "qa") :=
  C6_stage1_failure_halts (.exited (some 1)) (.exited (some 0)) (by decide)

/-- C7: whenever no progress record is resolvable, getProgress returns exactly
the unknown sentinel and never signals an error (the model function is total):
with no identifiers at all; with a job id whose progress file does not exist
(unknown job ids included); with a job id whose file contents do not parse;
and with only a conversation reference that has no registry entry. -/
theorem C7_unknown_sentinel (s : OrchState) :
    (getProgress none none s = unknownRec) ∧
    (∀ j : String, ∀ cv : Option String, j ≠ "" → objLookup s.files j = none →
      getProgress (some j) cv s = unknownRec) ∧
    (∀ j : String, ∀ cv : Option String, ∀ raw, j ≠ "" →
      objLookup s.files j = some (.malformed raw) → getProgress (some j) cv s = unknownRec) ∧
    (∀ ck : String, objLookup s.convJobMap ck = none →
      getProgress none (some ck) s = unknownRec) := by
  refine ⟨rfl, ?_, ?_, ?_⟩
  · intro j cv hj hfile
    simp [getProgress, resolveJobId, jsStrFalsy, hj, hfile]
  · intro j cv raw hj hfile
    simp [getProgress, resolveJobId, jsStrFalsy, hj, hfile]
  · intro ck hck
    by_cases hcke : ck = ""
    · subst hcke
      simp [getProgress, resolveJobId, jsStrFalsy]
    · simp [getProgress, resolveJobId, jsStrFalsy, hcke, hck]

/-- C7, witness: the sentinel on an empty server state, for a missing file, a
malformed file and a registry miss. -/
theorem C7_unknown_sentinel_witness :
    (getProgress none none ⟨[], []⟩ = unknownRec) ∧
    (getProgress (some "deadbeef") none ⟨[], []⟩ = unknownRec) ∧
    (getProgress (some "j1") none ⟨[], [("j1", .malformed "not json")]⟩ = unknownRec) ∧
    (getProgress none (some "1:5") ⟨[], []⟩ = unknownRec) :=
  ⟨(C7_unknown_sentinel ⟨[], []⟩).1,
    (C7_unknown_sentinel ⟨[], []⟩).2.1 "deadbeef" none (by decide) rfl,
    (C7_unknown_sentinel ⟨[], [("j1", .malformed "not json")]⟩).2.2.1 "j1" none "not json"
      (by decide) (by decide),
    (C7_unknown_sentinel ⟨[], []⟩).2.2.2 "1:5" rfl⟩

/-- C8: starting a second job for the same conversation replaces only the
registry entry: afterwards the registry maps the conversation to the second
job, polling by the conversation resolves the second job record, and polling
by the first job id still returns the first job last-written record; the old
ledger record is not deleted. -/
theorem C8_supersede_registry_only (s : OrchState) (key j1 j2 : String)
    (r1 r2 : ProgressRec) (hne : j1 ≠ j2) (h1 : j1 ≠ "") (h2 : j2 ≠ "") (hk : key ≠ "") :
    objLookup (startJobStep key j2 (writeProgressFile j1 (.parses r1)
      (startJobStep key j1 s))).convJobMap key = some j2 ∧
    getProgress none (some key) (writeProgressFile j2 (.parses r2) (startJobStep key j2
      (writeProgressFile j1 (.parses r1) (startJobStep key j1 s)))) = r2 ∧
    getProgress (some j1) none (writeProgressFile j2 (.parses r2) (startJobStep key j2
      (writeProgressFile j1 (.parses r1) (startJobStep key j1 s)))) = r1 := by
  have hne2 : ¬ (j2 = j1) := fun he => hne he.symm
  refine ⟨?_, ?_, ?_⟩
  · simp [startJobStep, writeProgressFile, objLookup_objSet]
  · simp [getProgress, resolveJobId, jsStrFalsy, hk, startJobStep, writeProgressFile,
      objLookup_objSet, h2]
  · simp [getProgress, resolveJobId, jsStrFalsy, h1, startJobStep, writeProgressFile,
      objLookup_objSet, hne2]

/-- C8, witness: two jobs started back to back for the same conversation,
evaluated on an empty server state. -/
theorem C8_supersede_registry_only_witness :
    objLookup (startJobStep "1:5" "bb" (writeProgressFile "aa"
      (.parses ⟨"analysis", "x"⟩) (startJobStep "1:5" "aa" ⟨[], []⟩))).convJobMap "1:5" =
      some "bb" ∧
    getProgress none (some "1:5") (writeProgressFile "bb" (.parses ⟨"qa", "y"⟩)
      (startJobStep "1:5" "bb" (writeProgressFile "aa" (.parses ⟨"analysis", "x"⟩)
        (startJobStep "1:5" "aa" ⟨[], []⟩)))) = ⟨"qa", "y"⟩ ∧
    getProgress (some "aa") none (writeProgressFile "bb" (.parses ⟨"qa", "y"⟩)
      (startJobStep "1:5" "bb" (writeProgressFile "aa" (.parses ⟨"analysis", "x"⟩)
        (startJobStep "1:5" "aa" ⟨[], []⟩)))) = ⟨"analysis", "x"⟩ :=
  C8_supersede_registry_only ⟨[], []⟩ "1:5" "aa" "bb" ⟨"analysis", "x"⟩ ⟨"qa", "y"⟩
    (by decide) (by decide) (by decide) (by decide)

end QGChat
